import Mathlib

/- Verification of the wut4 four-state digital logic simulator core
   (directory sim/ of the repository), against its natural-language
   specification.  The C sources are shallowly embedded: C unsigned
   64-bit words become Nat with explicit reduction mod 2^64 where C
   truncates, C arrays become total functions from Nat updated
   pointwise, and fallible construction-time operations return
   Except String. -/

namespace Wut4

/-! ## Four-valued logic primitives (sim/CORE/logic.c, sim/api.c)

A sib (simulated bit) is a 2-bit value: 0, 1, HIGHZ = 2, UNDEF = 3.
The tables below transcribe the arrays and4s_table, or4s_table,
xor4s_table, not4s_table from sim/CORE/logic.c; the row index is the
second argument a1, the column index the first argument a0, exactly as
in the C index expression SIB(a1)<<BITS_PER_SIB|SIB(a0). -/

def HIGHZ : Nat := 2

def UNDEF : Nat := 3

def BITS_PER_SIB : Nat := 2

/-- C macro SIB(v) = (v&3). -/
def SIB (v : Nat) : Nat := v &&& 3

def and4s_table : List Nat :=
  [0, 0, 0, 0,
   0, 1, 3, 3,
   0, 3, 3, 3,
   0, 3, 3, 3]

def or4s_table : List Nat :=
  [0, 1, 3, 3,
   1, 1, 3, 3,
   3, 3, 3, 3,
   3, 3, 3, 3]

def xor4s_table : List Nat :=
  [0, 1, 3, 3,
   1, 0, 3, 3,
   3, 3, 3, 3,
   3, 3, 3, 3]

def not4s_table : List Nat :=
  [1, 0, 3, 3]

def and4s (a0 a1 : Nat) : Nat :=
  and4s_table.getD ((SIB a1 <<< BITS_PER_SIB) ||| SIB a0) 0

def or4s (a0 a1 : Nat) : Nat :=
  or4s_table.getD ((SIB a1 <<< BITS_PER_SIB) ||| SIB a0) 0

def xor4s (a0 a1 : Nat) : Nat :=
  xor4s_table.getD ((SIB a1 <<< BITS_PER_SIB) ||| SIB a0) 0

def not4s (a0 : Nat) : Nat :=
  not4s_table.getD (SIB a0) 0

/-- NOT helper from sim/api.c: `(sib&0x2) ? UNDEF : ~sib&1`.  For the
C int argument, two's-complement `~sib & 1` extracts the complemented
low bit, here written `1 - (sib &&& 1)`. -/
def NOT (sib : Nat) : Nat :=
  if sib &&& 2 ≠ 0 then UNDEF else 1 - (sib &&& 1)

/-! Truth tables as the specification (section 4.1) and the claims state
them, for comparison with the code tables above. -/

/-- AND truth table exactly as claimed: 0 with anything is 0, 1&1 = 1,
every other combination involving Z or X gives X. -/
def andSpec (a b : Nat) : Nat :=
  if a = 0 ∨ b = 0 then 0 else if a = 1 ∧ b = 1 then 1 else UNDEF

/-- OR truth table exactly as claimed (and as the spec states): 1 with
anything gives 1, 0|0 = 0, every other combination involving Z or X
gives X. -/
def orSpec (a b : Nat) : Nat :=
  if a = 1 ∨ b = 1 then 1 else if a = 0 ∧ b = 0 then 0 else UNDEF

/-- XOR truth table exactly as claimed: the usual result on 0 and 1, X
when either operand is Z or X. -/
def xorSpec (a b : Nat) : Nat :=
  if a ≤ 1 ∧ b ≤ 1 then (a + b) % 2 else UNDEF

/-- NOT truth table exactly as claimed: 1, 0, X, X for 0, 1, Z, X. -/
def notSpec (a : Nat) : Nat :=
  if a = 0 then 1 else if a = 1 then 0 else UNDEF

/-! ## Packed bit-vector storage (sim/api.h)

The macros GET1/SET1/GETN/SETN address an array of 64-bit words, each
holding SIBS_PER_WORD = 32 sibs of 2 bits.  The C array is embedded as
a total function from word index to word value; C uint64_t arithmetic
that discards high bits is made explicit with reduction mod 2^64. -/

def TARGET_WORD_SIZE : Nat := 64

def SIBS_PER_WORD : Nat := TARGET_WORD_SIZE / BITS_PER_SIB

def SPW_LOG2 : Nat := 5

def SPW_MASK : Nat := 31

/-- C macro WORD(s): array index of the word containing sib s. -/
def WORD (s : Nat) : Nat := s >>> SPW_LOG2

/-- C macro POS(s): position of sib s within its word. -/
def POS (s : Nat) : Nat := s &&& SPW_MASK

/-- C macro BITPOS(s): position of the low bit of sib s within its word. -/
def BITPOS (s : Nat) : Nat := POS s * BITS_PER_SIB

/-- C macro BOUND(v,m) = v & m. -/
def BOUND (v m : Nat) : Nat := v &&& m

/-- C macro MASK(n): mask selecting n sibs (2n bits). -/
def MASK (n : Nat) : Nat := (1 <<< (BITS_PER_SIB * n)) - 1

/-- Reduction of a C expression to uint64_t width. -/
def w64 (x : Nat) : Nat := x % 2 ^ 64

/-- Pointwise update of an embedded C array. -/
def upd (f : Nat → Nat) (i x : Nat) : Nat → Nat :=
  fun j => if j = i then x else f j

/-- C macro GETN(sym,s,n) = (sym[WORD(s)]>>BITPOS(s))&MASK(n).  The
aliases getbus (and getnet for n = 1) emitted by the transpiler expand
to this macro. -/
def GETN (sym : Nat → Nat) (s n : Nat) : Nat :=
  (sym (WORD s) >>> BITPOS s) &&& MASK n

/-- C macro SETN(sym,s,n,v): first sym[WORD(s)] &= ~(MASK(n)<<BITPOS(s)),
then sym[WORD(s)] |= BOUND(v,MASK(n))<<BITPOS(s).  The C complement ~ on
uint64_t is xor with the all-ones word; both shifted operands are
truncated to 64 bits as in C. -/
def SETN (sym : Nat → Nat) (s n v : Nat) : Nat → Nat :=
  let w := sym (WORD s)
  let cleared := w &&& ((2 ^ 64 - 1) ^^^ w64 (MASK n <<< BITPOS s))
  upd sym (WORD s) (cleared ||| w64 (BOUND v (MASK n) <<< BITPOS s))

/-- C macro GET1(sym,s) = (sym[WORD(s)]>>BITPOS(s))&MASK(1). -/
def GET1 (sym : Nat → Nat) (s : Nat) : Nat :=
  (sym (WORD s) >>> BITPOS s) &&& MASK 1

/-- C macro SET1(sym,s,v): textually the n = 1 instance of SETN. -/
def SET1 (sym : Nat → Nat) (s v : Nat) : Nat → Nat :=
  SETN sym s 1 v

/-! ## Part registry and binding pool (sim/part.c, sim/part.h)

The fixed C arrays states[], binds[], parts[] (statics, hence
zero-initialized) are embedded as total functions from index; the
allocation counters next_state, next_bind, next_part start at 1, index
0 being reserved.  Function pointers eval and edge are opaque numeric
identifiers.  Fatal construction errors become Except.error. -/

def MACHINE_SIZE : Nat := 64

def ALL_BITS : Nat := 2 ^ 64 - 1

def MAX_STATE : Nat := 128

def MAX_PART : Nat := 64

def N_BIND : Nat := 8

def MAX_BIND : Nat := 256

structure state_t where
  values : Nat
  undefs : Nat
  highzs : Nat
  part : Nat
deriving DecidableEq

structure bind_t where
  from_ : Nat
  offset : Nat
  n_bits : Nat
deriving DecidableEq

structure part_t where
  name : String
  eval : Nat
  edge : Nat
  inputs : List Nat
  next_bind : Nat
  future : Nat
  output : Nat
deriving DecidableEq

/-- Zero-initialized state_t, the content of every states[] slot before
its first allocation. -/
def state0 : state_t := ⟨0, 0, 0, 0⟩

def bind0 : bind_t := ⟨0, 0, 0⟩

def part0 : part_t :=
  { name := "", eval := 0, edge := 0, inputs := List.replicate N_BIND 0,
    next_bind := 0, future := 0, output := 0 }

structure Pools where
  states : Nat → state_t
  next_state : Nat
  binds : Nat → bind_t
  next_bind : Nat
  parts : Nat → part_t
  next_part : Nat

/-- Pointwise update of an embedded C array of any element type. -/
def updf {α : Type} (f : Nat → α) (i : Nat) (x : α) : Nat → α :=
  fun j => if j = i then x else f j

/-- The pools as the C program starts: zero-initialized statics, all
three allocation counters at 1. -/
def init_pools : Pools :=
  { states := fun _ => state0, next_state := 1,
    binds := fun _ => bind0, next_bind := 1,
    parts := fun _ => part0, next_part := 1 }

/-- make_state from sim/part.c: allocates the next states[] slot for
part p, setting its part back-pointer and undefs = ALL_BITS (values
and highzs are whatever the slot held, zero for a never-used slot). -/
def make_state (g : Pools) (p : Nat) : Except String (Pools × Nat) :=
  if MAX_STATE ≤ g.next_state then
    .error "cannot allocate memory: state"
  else
    let s := g.next_state
    .ok ({ g with
            states := updf g.states s { g.states s with part := p, undefs := ALL_BITS },
            next_state := s + 1 }, s)

/-- make_comb from sim/part.c: allocates the next parts[] slot, fills
name, eval, edge, then output := make_state(p) and future := 0. -/
def make_comb (g : Pools) (nm : String) (ev ed : Nat) : Except String (Pools × Nat) :=
  if MAX_PART ≤ g.next_part then
    .error "cannot allocate memory: part"
  else
    let p := g.next_part
    let g1 := { g with
                 parts := updf g.parts p { g.parts p with name := nm, eval := ev, edge := ed },
                 next_part := p + 1 }
    match make_state g1 p with
    | .error e => .error e
    | .ok (g2, s) =>
        .ok ({ g2 with parts := updf g2.parts p { g2.parts p with output := s, future := 0 } }, p)

/-- make_seq from sim/part.c: make_comb plus a future state slot. -/
def make_seq (g : Pools) (nm : String) (ev ed : Nat) : Except String (Pools × Nat) :=
  match make_comb g nm ev ed with
  | .error e => .error e
  | .ok (g1, p) =>
      match make_state g1 p with
      | .error e => .error e
      | .ok (g2, s) =>
          .ok ({ g2 with parts := updf g2.parts p { g2.parts p with future := s } }, p)

/-- bind from sim/part.c, embedded exactly as written: pval is the part
that OWNS the source state (states[from].part); the MAX_BIND test is
applied to parts[to].next_bind, the N_BIND test and the recording of
the new binding both use pval, the source part. -/
def bind (g : Pools) (from_ to_ offset n_bits : Nat) : Except String Pools :=
  let pIdx := (g.states from_).part
  let pval := g.parts pIdx
  if MAX_BIND ≤ (g.parts to_).next_bind then
    .error "cannot allocate memory: bind"
  else if N_BIND ≤ pval.next_bind then
    .error "too many input binds"
  else
    let b := g.next_bind
    let g1 := { g with
                 binds := updf g.binds b { from_ := from_, offset := offset, n_bits := n_bits },
                 next_bind := b + 1 }
    let n := pval.next_bind
    .ok { g1 with
           parts := updf g1.parts pIdx
             { pval with inputs := pval.inputs.set n b, next_bind := n + 1 } }

/-- Modelled from the spec: the effective 4-state value of one sib of a
state_t is computed by first checking undefs, then highzs, else the bit
in values (spec section 3); the sim/ sources declare no such reader for
state_t, only the comment in part.h describing the three bit vectors. -/
def eff_sib (st : state_t) (i : Nat) : Nat :=
  if st.undefs.testBit i then UNDEF
  else if st.highzs.testBit i then HIGHZ
  else if st.values.testBit i then 1
  else 0

/-- Decidable freshness invariant: every states[] slot at or beyond the
allocation counter still holds its zero-initialized content. -/
def fresh_ok (g : Pools) : Bool :=
  (List.range MAX_STATE).all fun i => decide (i < g.next_state) || decide (g.states i = state0)

/-- Construction used to test the binding limit: ten combinational
parts (parts 1..10 owning output states 1..10), then nine calls of
bind, each from a DIFFERENT source state 1..9, all targeting part 10
as destination. -/
def c3_build : Except String Pools := do
  let (g, _) ← make_comb init_pools "p1" 0 0
  let (g, _) ← make_comb g "p2" 0 0
  let (g, _) ← make_comb g "p3" 0 0
  let (g, _) ← make_comb g "p4" 0 0
  let (g, _) ← make_comb g "p5" 0 0
  let (g, _) ← make_comb g "p6" 0 0
  let (g, _) ← make_comb g "p7" 0 0
  let (g, _) ← make_comb g "p8" 0 0
  let (g, _) ← make_comb g "p9" 0 0
  let (g, _) ← make_comb g "p10" 0 0
  let g ← Wut4.bind g 1 10 0 1
  let g ← Wut4.bind g 2 10 0 1
  let g ← Wut4.bind g 3 10 0 1
  let g ← Wut4.bind g 4 10 0 1
  let g ← Wut4.bind g 5 10 0 1
  let g ← Wut4.bind g 6 10 0 1
  let g ← Wut4.bind g 7 10 0 1
  let g ← Wut4.bind g 8 10 0 1
  let g ← Wut4.bind g 9 10 0 1
  pure g

/-- Construction binding nine times from the SAME source state (part 1
output) to part 2: this is the case the code's N_BIND check actually
catches. -/
def c3_build_same_source : Except String Pools := do
  let (g, _) ← make_comb init_pools "p1" 0 0
  let (g, _) ← make_comb g "p2" 0 0
  let g ← Wut4.bind g 1 2 0 1
  let g ← Wut4.bind g 1 2 0 1
  let g ← Wut4.bind g 1 2 0 1
  let g ← Wut4.bind g 1 2 0 1
  let g ← Wut4.bind g 1 2 0 1
  let g ← Wut4.bind g 1 2 0 1
  let g ← Wut4.bind g 1 2 0 1
  let g ← Wut4.bind g 1 2 0 1
  let g ← Wut4.bind g 1 2 0 1
  pure g

/-! ## Cycle scheduler (sim/sim.c, sim/api.c)

The static resolver arrays of sim.c are embedded as lists of optional
handler identifiers (a null function pointer is none); the statics
cycle, max_cycles, por_cycles and clock are passed explicitly.  A run
is summarized by the list of events it performs: each hook invocation
is recorded with its phase and the value of the virtual clock at call
time, and any call of the trace sink would be recorded as a traceSink
event. -/

inductive Phase
  | rising_edge
  | clock_is_high
  | falling_edge
  | clock_is_low
deriving DecidableEq

inductive SimEvent
  | hookCall (phase : Phase) (hook : Nat) (clock : Nat)
  | traceSink
deriving DecidableEq

def MAX_RESOLVERS : Nat := 10

/-- execute from sim/sim.c: call each function pointer of the resolver
array in index order, stopping at the first null entry. -/
def execute : List (Option Nat) → List Nat
  | [] => []
  | none :: _ => []
  | some f :: rest => f :: execute rest

/-- Modelled from the spec: add_rising_edge_hook and its three phase
siblings are declared in sim/api.h and called by Sample.c but defined
nowhere under sim/; per the spec, registration appends the handler at
the first free (null) slot of that phase's resolver array, so hooks
run in registration order. -/
def add_hook (tbl : List (Option Nat)) (fp : Nat) : List (Option Nat) :=
  match tbl with
  | [] => []
  | none :: rest => some fp :: rest
  | some g :: rest => some g :: add_hook rest fp

def add_hooks (tbl : List (Option Nat)) (fps : List Nat) : List (Option Nat) :=
  fps.foldl add_hook tbl

def empty_resolvers : List (Option Nat) := List.replicate MAX_RESOLVERS none

/-- One iteration of the simulate loop in sim/sim.c: rising_edge with
the clock still holding its previous value clk0, then clock = 1,
clock_is_high, falling_edge, clock = 0, clock_is_low.  Returns the
event list of the iteration and the final clock value; the loop body
calls no trace function. -/
def cycle_trace (r hi f lo : List (Option Nat)) (clk0 : Nat) : List SimEvent × Nat :=
  let e1 := (execute r).map (fun h => SimEvent.hookCall Phase.rising_edge h clk0)
  let e2 := (execute hi).map (fun h => SimEvent.hookCall Phase.clock_is_high h 1)
  let e3 := (execute f).map (fun h => SimEvent.hookCall Phase.falling_edge h 1)
  let e4 := (execute lo).map (fun h => SimEvent.hookCall Phase.clock_is_low h 0)
  (e1 ++ e2 ++ e3 ++ e4, 0)

/-- Static max_cycles = 10 from sim/sim.c (and sim/api.c). -/
def max_cycles : Nat := 10

/-- Static por_cycles = 2 from sim/sim.c (and sim/api.c). -/
def por_cycles : Nat := 2

/-- halt from sim/sim.c: whether to stop, true once the 1-based cycle
counter exceeds max_cycles. -/
def halt (max cycle : Nat) : Bool := decide (max < cycle)

/-- The for loop of simulate in sim/sim.c: for (cycle = 1; !halt();
cycle++), collected as the list of cycle numbers that execute. -/
def sim_cycles (max cycle : Nat) : List Nat :=
  if halt max cycle then []
  else cycle :: sim_cycles max (cycle + 1)
termination_by max + 1 - cycle
decreasing_by simp [halt] at *; omega

/-- The same loop collecting the full event trace of the run: each
iteration contributes exactly the events of cycle_trace and nothing
else — in particular simulate never calls write_trace. -/
def sim_trace (r hi f lo : List (Option Nat)) (max cycle clk : Nat) : List SimEvent :=
  if halt max cycle then []
  else
    (cycle_trace r hi f lo clk).1 ++ sim_trace r hi f lo max (cycle + 1) (cycle_trace r hi f lo clk).2
termination_by max + 1 - cycle
decreasing_by simp [halt] at *; omega

/-- TspGetPor from sim/api.c and sim/sim.c: cycle <= por_cycles as a C
boolean, 1 when asserted and 0 when not; GetPOR() expands to this. -/
def TspGetPor (cycle por : Nat) : Nat :=
  if cycle ≤ por then 1 else 0

/-- halt from sim/api.c: a hook requests a halt by setting the global
cycle counter just past max_cycles. -/
def halt_request (max : Nat) : Nat := 1 + max

/-- is_running from sim/api.c. -/
def is_running (g_cycle max : Nat) : Bool := decide (g_cycle ≤ max)

/-! ## Trace sink (sim/CORE/trace.c)

write_trace interacts with the file system only through the FILE
pointer trace_file and fwrite; the embedding keeps whether the file is
open, how many error reports have been printed, and how many snapshot
writes succeeded.  The success of the underlying fwrite is an input. -/

structure TraceState where
  trace_file : Bool
  reports : Nat
  writes : Nat
deriving DecidableEq

/-- write_trace from sim/CORE/trace.c: if trace_file is non-null an
fwrite of the nets snapshot is attempted; if it comes up short, the
failure is reported (msg), the file is closed and trace_file nulled,
so every later call short-circuits on the null pointer and does
nothing.  The function always returns; there is no fatal path. -/
def write_trace (st : TraceState) (ok : Bool) : TraceState :=
  if st.trace_file then
    if ok then { st with writes := st.writes + 1 }
    else { trace_file := false, reports := st.reports + 1, writes := st.writes }
  else st

/-- A sequence of write_trace calls with the given fwrite outcomes. -/
def run_trace_writes (st : TraceState) (oks : List Bool) : TraceState :=
  oks.foldl write_trace st

end Wut4

namespace Wut4

/-! ## Helper lemmas on the packed representation -/

theorem land_mask_eq_mod (x k : Nat) : x &&& (2 ^ k - 1) = x % 2 ^ k := by
  apply Nat.eq_of_testBit_eq
  intro i
  simp [Nat.testBit_land, Nat.testBit_two_pow_sub_one, Nat.testBit_mod_two_pow, Bool.and_comm]

theorem MASK_eq (n : Nat) : MASK n = 2 ^ (2 * n) - 1 := by
  simp [MASK, BITS_PER_SIB, Nat.shiftLeft_eq]

theorem testBit_MASK (n i : Nat) : (MASK n).testBit i = decide (i < 2 * n) := by
  rw [MASK_eq]
  exact Nat.testBit_two_pow_sub_one ..

theorem POS_le (s : Nat) : POS s ≤ 31 :=
  Nat.and_le_right

theorem POS_eq_mod (s : Nat) : POS s = s % 32 := by
  have h := land_mask_eq_mod s 5
  norm_num at h
  simpa [POS, SPW_MASK] using h

theorem WORD_eq_div (s : Nat) : WORD s = s / 32 := by
  have h := Nat.shiftRight_eq_div_pow s 5
  norm_num at h
  simpa [WORD, SPW_LOG2] using h

theorem BITPOS_eq (s : Nat) : BITPOS s = 2 * POS s := by
  simp [BITPOS, BITS_PER_SIB, Nat.mul_comm]

theorem testBit_w64 (x i : Nat) : (w64 x).testBit i = (decide (i < 64) && x.testBit i) :=
  Nat.testBit_mod_two_pow ..

/-- Core lemma on SETN followed by GETN at the same field: the macros
read and write only the single word addressed by WORD(s), so exactly
the bits of the value that fall inside that word survive; the bits at
and beyond sib position SIBS_PER_WORD are silently dropped. -/
theorem SIBS_PER_WORD_eq : SIBS_PER_WORD = 32 := by
  norm_num [SIBS_PER_WORD, TARGET_WORD_SIZE, BITS_PER_SIB]

theorem setn_getn_general (sym : Nat → Nat) (s n v : Nat) :
    GETN (SETN sym s n v) s n = (v &&& MASK n) &&& MASK (SIBS_PER_WORD - POS s) := by
  have hP : POS s ≤ 31 := POS_le s
  apply Nat.eq_of_testBit_eq
  intro j
  simp only [GETN, SETN, BOUND, upd, if_pos rfl, BITPOS_eq,
    Nat.testBit_land, Nat.testBit_lor, Nat.testBit_xor, Nat.testBit_shiftRight,
    Nat.testBit_shiftLeft, testBit_w64, testBit_MASK, Nat.testBit_two_pow_sub_one, if_true,
    Nat.add_sub_cancel_left, ge_iff_le, Nat.le_add_right, decide_True]
  have hd : (j < 2 * (SIBS_PER_WORD - POS s)) ↔ (2 * POS s + j < 64) := by
    rw [SIBS_PER_WORD_eq]
    omega
  simp only [hd]
  by_cases h64 : 2 * POS s + j < 64 <;> by_cases hjn : j < 2 * n <;>
    simp [h64, hjn]

/-- SETN touches no sib outside the field: for a field that stays
inside one word, every other sib of the whole array reads unchanged. -/
theorem setn_outside (sym : Nat → Nat) (s n v t : Nat)
    (ht : t < s ∨ s + n ≤ t) :
    GET1 (SETN sym s n v) t = GET1 sym t := by
  by_cases hW : WORD t = WORD s
  · have hs32 : POS s = s % 32 := POS_eq_mod s
    have ht32 : POS t = t % 32 := POS_eq_mod t
    have hsd : WORD s = s / 32 := WORD_eq_div s
    have htd : WORD t = t / 32 := WORD_eq_div t
    have hPQ : POS t < POS s ∨ POS s + n ≤ POS t := by
      rw [hsd, htd] at hW
      rw [hs32, ht32]
      omega
    have hPt : POS t ≤ 31 := POS_le t
    have hPs : POS s ≤ 31 := POS_le s
    apply Nat.eq_of_testBit_eq
    intro j
    simp only [GET1, SETN, upd, hW, if_pos rfl, BITPOS_eq, BOUND,
      Nat.testBit_land, Nat.testBit_lor, Nat.testBit_xor, Nat.testBit_shiftRight,
      Nat.testBit_shiftLeft, testBit_w64, testBit_MASK, Nat.testBit_two_pow_sub_one, if_true,
      ge_iff_le]
    by_cases hj : j < 2 * 1
    · have h64 : 2 * POS t + j < 64 := by omega
      rcases hPQ with h | h
      · have h1 : ¬ 2 * POS s ≤ 2 * POS t + j := by omega
        simp [h1, h64, hj]
      · have h1 : ¬ (2 * POS t + j - 2 * POS s < 2 * n) := by omega
        simp [h1, h64, hj]
    · simp [hj]
  · simp [GET1, SETN, upd, hW]

/-- Round trip for a field that stays inside one word and a value that
fits the field. -/
theorem setn_getn_roundtrip (sym : Nat → Nat) (s n v : Nat)
    (h1 : POS s + n ≤ SIBS_PER_WORD) (h2 : v ≤ MASK n) :
    GETN (SETN sym s n v) s n = v := by
  rw [setn_getn_general]
  have hpow : 0 < 2 ^ (2 * n) := Nat.pos_pow_of_pos _ (by norm_num)
  have h2' : v ≤ 2 ^ (2 * n) - 1 := by rwa [MASK_eq] at h2
  have hv : v < 2 ^ (2 * n) := by omega
  have hle : 2 * n ≤ 2 * (SIBS_PER_WORD - POS s) := by
    rw [SIBS_PER_WORD_eq] at h1 ⊢
    have := POS_le s
    omega
  have hv2 : v < 2 ^ (2 * (SIBS_PER_WORD - POS s)) :=
    lt_of_lt_of_le hv (Nat.pow_le_pow_right (by norm_num) hle)
  rw [MASK_eq n, MASK_eq (SIBS_PER_WORD - POS s), land_mask_eq_mod v (2 * n),
    Nat.mod_eq_of_lt hv, land_mask_eq_mod v (2 * (SIBS_PER_WORD - POS s)),
    Nat.mod_eq_of_lt hv2]

end Wut4

namespace Wut4

/-- C1: the claim asserts that and4s, or4s, xor4s match the section 4.1
truth tables for all 16 sib pairs and not4s and NOT are correct on all
four sibs.  The code satisfies this for AND, XOR and NOT, but the OR
table in sim/CORE/logic.c is not 1-dominant: or4s(1,Z), or4s(Z,1),
or4s(1,X) and or4s(X,1) all return X where the claim (and spec section
4.1, which says 1 or anything is 1) requires 1.  This theorem records
the divergence at the failing inputs and verifies the remaining
primitives against the claimed tables. -/
theorem c1_or4s_diverges_and_xor_not_match :
    (or4s 1 HIGHZ = UNDEF ∧ or4s HIGHZ 1 = UNDEF ∧
     or4s 1 UNDEF = UNDEF ∧ or4s UNDEF 1 = UNDEF ∧
     orSpec 1 HIGHZ = 1 ∧ orSpec HIGHZ 1 = 1) ∧
    (∀ a : Fin 4, ∀ b : Fin 4, and4s a.val b.val = andSpec a.val b.val) ∧
    (∀ a : Fin 4, ∀ b : Fin 4, xor4s a.val b.val = xorSpec a.val b.val) ∧
    (∀ a : Fin 4, not4s a.val = notSpec a.val) ∧
    (∀ a : Fin 4, NOT a.val = notSpec a.val) := by
  refine ⟨by decide, by decide, by decide, by decide, by decide⟩

/-- C2 counterexample: in a two-word vector (capacity 64 sibs) the
field starting at sib 31 of width 2 lies within capacity but crosses
the word boundary; SETN stores only the low sib of the value 5 and
GETN reads back 1, so set_field followed by get_field does not return
the value unchanged. -/
theorem c2_counterexample :
    31 + 2 ≤ 2 * SIBS_PER_WORD ∧ 5 ≤ MASK 2 ∧
    GETN (SETN (fun _ => 0) 31 2 5) 31 2 = 1 ∧ (1 : Nat) ≠ 5 :=
  ⟨by decide, by decide, by decide, by decide⟩

/-- C2 (amended): for a field that lies within a single 64-bit word
(POS index + width at most SIBS_PER_WORD) and a value representable in
the field, SETN followed by GETN at the same index and width returns
the value unchanged, and every sib outside the field, in any word of
the array, reads unchanged (no bit leakage).  A field that crosses a
word boundary is silently truncated instead (see the counterexample),
which is the only weakening the code forces. -/
theorem c2_set_get_roundtrip_within_word (sym : Nat → Nat) (s n v : Nat)
    (h1 : POS s + n ≤ SIBS_PER_WORD) (h2 : v ≤ MASK n) :
    GETN (SETN sym s n v) s n = v ∧
    ∀ t, t < s ∨ s + n ≤ t → GET1 (SETN sym s n v) t = GET1 sym t :=
  ⟨setn_getn_roundtrip sym s n v h1 h2,
   fun t ht => setn_outside sym s n v t ht⟩

theorem c2_set_get_roundtrip_within_word_witness :
    (POS 4 + 3 ≤ SIBS_PER_WORD ∧ 37 ≤ MASK 3) ∧
    GETN (SETN (fun _ => 0) 4 3 37) 4 3 = 37 ∧
    GET1 (SETN (fun _ => 0) 4 3 37) 2 = GET1 (fun _ => 0) 2 :=
  ⟨⟨by decide, by decide⟩,
   (c2_set_get_roundtrip_within_word (fun _ => 0) 4 3 37 (by decide) (by decide)).1,
   (c2_set_get_roundtrip_within_word (fun _ => 0) 4 3 37 (by decide) (by decide)).2
     2 (by decide)⟩

/-- C4 counterexample: in a one-word vector (declared capacity
SIBS_PER_WORD = 32 sibs) the access at index 31 with width 2 crosses
outside the capacity, yet SETN and GETN complete normally: no fatal
diagnostic exists on this path, and the out-of-range part of the value
7 is silently masked off, reading back 3. -/
theorem c4_counterexample :
    SIBS_PER_WORD < 31 + 2 ∧
    GETN (SETN (fun _ => 0) 31 2 7) 31 2 = 3 ∧ (3 : Nat) ≠ 7 :=
  ⟨by decide, by decide, by decide⟩

/-- C4 (amended): the GETN/SETN access path (getnet, getbus, setnet,
setbus) performs no capacity check at all.  An access whose field
extends past the addressed 64-bit word is not a fatal error: SETN
stores, and GETN reads back, exactly the bits of the value that fall
inside the addressed word — the bits at and beyond the word end are
silently masked off at runtime. -/
theorem c4_out_of_range_silently_masked (sym : Nat → Nat) (s n v : Nat) :
    GETN (SETN sym s n v) s n = (v &&& MASK n) &&& MASK (SIBS_PER_WORD - POS s) :=
  setn_getn_general sym s n v

/-! ## Helper lemmas on the part registry -/

theorem fresh_ok_spec (g : Pools) (h : fresh_ok g = true) :
    ∀ i, i < MAX_STATE → g.next_state ≤ i → g.states i = state0 := by
  intro i hi hle
  have h2 := List.all_eq_true.mp h i (List.mem_range.mpr hi)
  simp only [Bool.or_eq_true, decide_eq_true_eq] at h2
  rcases h2 with h2 | h2
  · omega
  · exact h2

theorem eff_sib_undef (st : state_t) (i : Nat) (h : st.undefs = ALL_BITS)
    (hi : i < MACHINE_SIZE) : eff_sib st i = UNDEF := by
  have hbit : ALL_BITS.testBit i = true := by
    show (2 ^ 64 - 1).testBit i = true
    rw [Nat.testBit_two_pow_sub_one]
    simp only [decide_eq_true_eq]
    simpa [MACHINE_SIZE] using hi
  simp [eff_sib, h, hbit]

/-- C3: the claim asserts that registering more input bindings on one
destination part than N_BIND = 8 is a fatal error and that bind also
fails fatally when the global binding pool is exhausted.  The code
does neither: in c3_build, NINE bindings all target part 10 as
destination, yet construction succeeds (isOk), part 10's own binding
counter is still 0 — each binding was recorded on its SOURCE part
(parts 1..9 each end with counter 1) because bind applies the N_BIND
check and the recording to parts[states[from].part], the source — and
the global counter reached 10 without ever being tested (the MAX_BIND
comparison reads parts[to].next_bind, a per-part counter bounded by 8,
so it can never fire).  The only fatal path is nine bindings from the
same SOURCE, shown by c3_build_same_source. -/
theorem c3_bind_limit_not_enforced_on_destination :
    (c3_build.map (fun g =>
        ((g.parts 10).next_bind, (g.parts 1).next_bind, (g.parts 9).next_bind, g.next_bind))
      = .ok (0, 1, 1, 10)) ∧
    c3_build.isOk = true ∧
    c3_build_same_source.isOk = false :=
  ⟨rfl, rfl, rfl⟩

/-- C10: every state_t allocated by make_state on a pool whose
unallocated slots are still zero-initialized (fresh_ok, true of the C
program's static arrays) reads values = 0, undefs = ALL_BITS,
highzs = 0; hence the output state of a part made by make_comb or
make_seq, and the future state of a sequential part, have every sib
reading as X (undefined) before any eval or edge function has run. -/
theorem c10_new_states_read_undefined (g : Pools) (nm : String) (ev ed : Nat)
    (hfresh : fresh_ok g = true)
    (hp : g.next_part < MAX_PART) (hs : g.next_state + 1 < MAX_STATE) :
    ((make_comb g nm ev ed).toOption.map (fun gp =>
        ((gp.1.states ((gp.1.parts gp.2).output)).values,
         (gp.1.states ((gp.1.parts gp.2).output)).undefs,
         (gp.1.states ((gp.1.parts gp.2).output)).highzs)) = some (0, ALL_BITS, 0)) ∧
    ((make_seq g nm ev ed).toOption.map (fun gp =>
        ((gp.1.states ((gp.1.parts gp.2).output)).values,
         (gp.1.states ((gp.1.parts gp.2).output)).undefs,
         (gp.1.states ((gp.1.parts gp.2).output)).highzs,
         (gp.1.states ((gp.1.parts gp.2).future)).values,
         (gp.1.states ((gp.1.parts gp.2).future)).undefs,
         (gp.1.states ((gp.1.parts gp.2).future)).highzs))
       = some (0, ALL_BITS, 0, 0, ALL_BITS, 0)) ∧
    (∀ i, i < MACHINE_SIZE →
       (make_seq g nm ev ed).toOption.map (fun gp =>
          (eff_sib (gp.1.states ((gp.1.parts gp.2).output)) i,
           eff_sib (gp.1.states ((gp.1.parts gp.2).future)) i))
         = some (UNDEF, UNDEF)) := by
  have hnp : ¬ MAX_PART ≤ g.next_part := by omega
  have hns : ¬ MAX_STATE ≤ g.next_state := by omega
  have hns2 : ¬ MAX_STATE ≤ g.next_state + 1 := by omega
  have hzero : g.states g.next_state = state0 :=
    fresh_ok_spec g hfresh g.next_state (by simp [MAX_STATE] at hs ⊢; omega) (Nat.le_refl _)
  have hzero2 : g.states (g.next_state + 1) = state0 :=
    fresh_ok_spec g hfresh (g.next_state + 1) (by simp [MAX_STATE] at hs ⊢; omega) (by omega)
  simp only [make_seq, make_comb, make_state, if_neg hnp, if_neg hns, if_neg hns2]
  refine ⟨?_, ?_, ?_⟩
  · simp only [Except.toOption, Option.map]
    simp [updf, hzero, state0]
  · simp only [Except.toOption, Option.map]
    simp [updf, hzero, hzero2, state0]
  · intro i hi
    simp only [Except.toOption, Option.map]
    simp [updf, hzero, hzero2, state0]
    exact eff_sib_undef _ i rfl hi

theorem c10_new_states_read_undefined_witness :
    (fresh_ok init_pools = true ∧ init_pools.next_part < MAX_PART ∧
     init_pools.next_state + 1 < MAX_STATE) ∧
    ((make_comb init_pools "u1" 0 0).toOption.map (fun gp =>
        ((gp.1.states ((gp.1.parts gp.2).output)).values,
         (gp.1.states ((gp.1.parts gp.2).output)).undefs,
         (gp.1.states ((gp.1.parts gp.2).output)).highzs)) = some (0, ALL_BITS, 0)) ∧
    ((make_seq init_pools "u1" 0 0).toOption.map (fun gp =>
          (eff_sib (gp.1.states ((gp.1.parts gp.2).output)) 5,
           eff_sib (gp.1.states ((gp.1.parts gp.2).future)) 5))
         = some (UNDEF, UNDEF)) :=
  ⟨⟨by decide, by decide, by decide⟩,
   (c10_new_states_read_undefined init_pools "u1" 0 0 (by decide) (by decide) (by decide)).1,
   (c10_new_states_read_undefined init_pools "u1" 0 0 (by decide) (by decide) (by decide)).2.2
     5 (by decide)⟩

/-! ## Helper lemmas on hook registration and the trace sink -/

theorem add_hook_fills_first_none (acc : List Nat) (rest : List (Option Nat)) (f : Nat) :
    add_hook (acc.map some ++ none :: rest) f = acc.map some ++ some f :: rest := by
  induction acc with
  | nil => rfl
  | cons a l ih => simp [add_hook, ih]

theorem add_hooks_fill (fps : List Nat) (acc : List Nat) (k : Nat)
    (h : fps.length ≤ k) :
    add_hooks (acc.map some ++ List.replicate k none) fps
      = (acc ++ fps).map some ++ List.replicate (k - fps.length) none := by
  induction fps generalizing acc k with
  | nil => simp [add_hooks]
  | cons f fs ih =>
    cases k with
    | zero => simp at h
    | succ k2 =>
      have hrep : List.replicate (k2 + 1) (none : Option Nat)
          = none :: List.replicate k2 none := rfl
      simp only [add_hooks, List.foldl_cons]
      rw [hrep, add_hook_fills_first_none]
      have h2 := ih (acc ++ [f]) k2 (by simpa using h)
      simp only [add_hooks] at h2
      simp only [List.map_append, List.map_cons, List.map_nil] at h2
      simpa using h2

theorem execute_full (l : List Nat) (k : Nat) :
    execute (l.map some ++ List.replicate k none) = l := by
  induction l with
  | nil => cases k <;> rfl
  | cons a t ih => simp [execute, ih]

theorem execute_registered (l : List Nat) (h : l.length ≤ MAX_RESOLVERS) :
    execute (add_hooks empty_resolvers l) = l := by
  have h2 := add_hooks_fill l [] MAX_RESOLVERS h
  simp only [List.map_nil, List.nil_append] at h2
  rw [empty_resolvers, h2, execute_full]

theorem write_trace_closed_noop (st : TraceState) (ok : Bool) (h : st.trace_file = false) :
    write_trace st ok = st := by
  simp [write_trace, h]

theorem run_trace_closed (oks : List Bool) (r w : Nat) :
    run_trace_writes ⟨false, r, w⟩ oks = ⟨false, r, w⟩ := by
  induction oks with
  | nil => rfl
  | cons o t ih => simp [run_trace_writes, List.foldl_cons, write_trace] at *; exact ih

theorem run_trace_ok (oks : List Bool) (r w : Nat) (h : oks.all (fun x => x) = true) :
    run_trace_writes ⟨true, r, w⟩ oks = ⟨true, r, w + oks.length⟩ := by
  induction oks generalizing w with
  | nil => rfl
  | cons o t ih =>
    have ho : o = true := by simp [List.all_cons] at h; exact h.1
    have ht : t.all (fun x => x) = true := by simp [List.all_cons] at h; simp [h.2]
    subst ho
    simp only [run_trace_writes, List.foldl_cons, write_trace, if_true]
    have := ih (w + 1) ht
    simp [run_trace_writes] at this
    simp [this, List.length_cons]
    omega

/-! ## Scheduler and trace claims -/

/-- C5: every simulation cycle executes the four phases in the fixed
order rising_edge, clock_is_high, falling_edge, clock_is_low; the
virtual clock is 1 throughout the clock_is_high phase and 0 throughout
the clock_is_low phase; and within each phase every hook registered
for that phase (registration modelled from the spec, the add_hook
functions being declared but not defined under sim/) is invoked
exactly once, in registration order: the cycle's event trace is
exactly the concatenation of the four registration lists in phase
order. -/
theorem c5_cycle_four_phases_hooks_in_order (rl hl fl ll : List Nat) (clk0 : Nat)
    (hr : rl.length ≤ MAX_RESOLVERS) (hh : hl.length ≤ MAX_RESOLVERS)
    (hf : fl.length ≤ MAX_RESOLVERS) (hlo : ll.length ≤ MAX_RESOLVERS) :
    cycle_trace (add_hooks empty_resolvers rl) (add_hooks empty_resolvers hl)
        (add_hooks empty_resolvers fl) (add_hooks empty_resolvers ll) clk0
      = (rl.map (fun h => SimEvent.hookCall Phase.rising_edge h clk0) ++
         hl.map (fun h => SimEvent.hookCall Phase.clock_is_high h 1) ++
         fl.map (fun h => SimEvent.hookCall Phase.falling_edge h 1) ++
         ll.map (fun h => SimEvent.hookCall Phase.clock_is_low h 0), 0) := by
  simp [cycle_trace, execute_registered rl hr, execute_registered hl hh,
    execute_registered fl hf, execute_registered ll hlo]

theorem c5_cycle_four_phases_hooks_in_order_witness :
    ([3, 4].length ≤ MAX_RESOLVERS ∧ [5].length ≤ MAX_RESOLVERS ∧
     ([] : List Nat).length ≤ MAX_RESOLVERS ∧ [6].length ≤ MAX_RESOLVERS) ∧
    cycle_trace (add_hooks empty_resolvers [3, 4]) (add_hooks empty_resolvers [5])
        (add_hooks empty_resolvers []) (add_hooks empty_resolvers [6]) 0
      = ([SimEvent.hookCall Phase.rising_edge 3 0, SimEvent.hookCall Phase.rising_edge 4 0,
          SimEvent.hookCall Phase.clock_is_high 5 1, SimEvent.hookCall Phase.clock_is_low 6 0], 0) :=
  ⟨⟨by decide, by decide, by decide, by decide⟩, by
    rw [c5_cycle_four_phases_hooks_in_order [3, 4] [5] [] [6] 0
      (by decide) (by decide) (by decide) (by decide)]
    rfl⟩

/-- C6: with max_cycles = 10 (the static default, por_cycles = 2 being
irrelevant to the count) the simulate loop executes exactly ten
cycles, the 1-based counter taking the values 1..10, and then halts;
halt() is true exactly when the counter exceeds max_cycles; and a hook
that requests a halt through the api.c halt() (which forces the global
cycle counter past max_cycles) makes is_running false. -/
theorem c6_ten_cycles_then_halt :
    sim_cycles max_cycles 1 = [1, 2, 3, 4, 5, 6, 7, 8, 9, 10] ∧
    (sim_cycles max_cycles 1).length = 10 ∧
    (∀ c, halt max_cycles c = decide (10 < c)) ∧
    (∀ m, is_running (halt_request m) m = false) := by
  refine ⟨by simp [sim_cycles, halt, max_cycles], ?_, fun c => rfl, fun m => by
    simp [is_running, halt_request]⟩
  simp [sim_cycles, halt, max_cycles]

/-- C7: the claim asserts that after the four phases of every cycle
the core calls the trace sink (write_trace) exactly once, so a 10
cycle run invokes it 10 times when tracing is enabled.  The simulate
loop in sim/sim.c contains no call of write_trace (nor of
initialize_tracing): over the whole 10-cycle run, whatever hooks are
registered, the number of trace-sink events is 0, not 10. -/
theorem c7_simulate_never_calls_trace_sink (r hi f lo : List (Option Nat)) :
    (sim_trace r hi f lo max_cycles 1 0).countP (fun e => decide (e = SimEvent.traceSink)) = 0 ∧
    (0 : Nat) ≠ 10 := by
  refine ⟨?_, by decide⟩
  have key : ∀ fuel max c clk, max + 1 - c = fuel →
      (sim_trace r hi f lo max c clk).countP (fun e => decide (e = SimEvent.traceSink)) = 0 := by
    intro fuel
    induction fuel with
    | zero =>
      intro max c clk hf
      rw [sim_trace]
      have : halt max c = true := by simp [halt]; omega
      simp [this]
    | succ k ih =>
      intro max c clk hf
      rw [sim_trace]
      by_cases hh : halt max c = true
      · simp [hh]
      · simp only [hh, if_false, Bool.false_eq_true, ite_false, List.countP_append]
        have h1 : (cycle_trace r hi f lo clk).1.countP
            (fun e => decide (e = SimEvent.traceSink)) = 0 := by
          rw [List.countP_eq_zero]
          intro e he
          simp only [cycle_trace, List.mem_append, List.mem_map] at he
          rcases he with ((⟨h2, _, h3⟩ | ⟨h2, _, h3⟩) | ⟨h2, _, h3⟩) | ⟨h2, _, h3⟩ <;>
            simp [← h3]
        have h2 := ih max (c + 1) (cycle_trace r hi f lo clk).2 (by simp [halt] at hh; omega)
        omega
  exact key (max_cycles + 1 - 1) max_cycles 1 0 rfl

/-- C8: the power-on-reset virtual signal read through TspGetPor
(GetPOR) is nonzero exactly when the 1-based cycle counter is at most
por_cycles, whose default is 2: POR is asserted during the first
por_cycles cycles and deasserted for every later cycle. -/
theorem c8_por_asserted_iff_cycle_le_por_cycles :
    (∀ c p, TspGetPor c p ≠ 0 ↔ c ≤ p) ∧ por_cycles = 2 ∧
    (∀ c, TspGetPor c por_cycles ≠ 0 ↔ c ≤ 2) := by
  refine ⟨fun c p => ?_, rfl, fun c => ?_⟩ <;>
    simp [TspGetPor, por_cycles]

/-- C9: starting from an open trace file, a run of write_trace calls
whose fwrite outcomes succeed until the first failure reports that
failure exactly once (one report in the whole run, whatever follows),
closes the file (trace_file false) and performs no further snapshot
write — the write counter stays at the number of pre-failure
successes; and every write_trace call on a closed file is a no-op.
write_trace always returns, so the simulation continues; the failure
is never fatal. -/
theorem c9_trace_write_failure_reported_once_then_disabled (oks1 oks2 : List Bool) (w : Nat)
    (h : oks1.all (fun x => x) = true) :
    run_trace_writes ⟨true, 0, w⟩ (oks1 ++ false :: oks2)
      = ⟨false, 1, w + oks1.length⟩ ∧
    (∀ st : TraceState, ∀ ok : Bool, st.trace_file = false → write_trace st ok = st) := by
  refine ⟨?_, fun st ok hst => write_trace_closed_noop st ok hst⟩
  have h1 : run_trace_writes ⟨true, 0, w⟩ oks1 = ⟨true, 0, w + oks1.length⟩ :=
    run_trace_ok oks1 0 w h
  rw [run_trace_writes, List.foldl_append]
  have h2 : List.foldl write_trace { trace_file := true, reports := 0, writes := w } oks1
      = ⟨true, 0, w + oks1.length⟩ := h1
  rw [h2]
  simp only [List.foldl_cons]
  have h3 : write_trace ⟨true, 0, w + oks1.length⟩ false
      = ⟨false, 1, w + oks1.length⟩ := rfl
  rw [h3]
  exact run_trace_closed oks2 1 (w + oks1.length)

theorem c9_trace_write_failure_reported_once_then_disabled_witness :
    ([true, true].all (fun x => x) = true) ∧
    run_trace_writes ⟨true, 0, 0⟩ ([true, true] ++ false :: [false, true])
      = ⟨false, 1, 2⟩ ∧
    write_trace ⟨false, 1, 2⟩ true = ⟨false, 1, 2⟩ :=
  ⟨by decide,
   (c9_trace_write_failure_reported_once_then_disabled [true, true] [false, true] 0 (by decide)).1,
   (c9_trace_write_failure_reported_once_then_disabled [true, true] [false, true] 0
     (by decide)).2 ⟨false, 1, 2⟩ true rfl⟩

end Wut4
